import Mathlib

/-!
Verification of the go-vite contract-dispatch scheduler (`unconfirmed.ContractWorker`)
against its natural-language specification.

The scheduler source (`ContractWorker`: construction, Start/Stop lifecycle,
`dispatchTask`, `FetchNewFromDb`, blacklist) is embedded below as executable Lean
functions.  The two-level priority queue (`model.PriorityToQueue`) and the worker
tasks (`ContractTask`) are referenced by the scheduler but their own source is not
part of the embedded code base; those parts are modelled from the specification,
as marked in their doc comments.  Addresses, hashes and quota values are modelled
as natural numbers; Go's `nil`/error results are modelled with `Option`/`Bool`
flags and `Except`.
-/

namespace GoVite

/-- An unconfirmed account block as seen by the scheduler: sender address
(`AccountAddress`), receiver address (`ToAddress`) and a source-block
identifier (`Hash`).  Addresses and hashes are modelled as naturals. -/
structure AccountBlock where
  AccountAddress : Nat
  ToAddress : Nat
  Hash : Nat
deriving DecidableEq, Repr

/-- Modelled from the spec: `model.FromItem`, one queued pending item —
the sender address, the carried block, the sender-priority value (sender's
quota) and the monotone insertion sequence number used as the tie-break
(spec section 4.3: earliest inserted wins on equal priorities). -/
structure FromItem where
  Key : Nat
  Value : AccountBlock
  Priority : Nat
  seq : Nat
deriving DecidableEq, Repr

/-- Modelled from the spec: `model.ToItem`, a receiver bucket — the receiver
address, the bucket's inner queue of pending items, the receiver-priority
value snapshot taken when the bucket was created, and its insertion
sequence number. -/
structure ToItem where
  Key : Nat
  Value : List FromItem
  Priority : Nat
  seq : Nat
deriving DecidableEq, Repr

/-- Modelled from the spec: `model.PriorityToQueue`, the two-level priority
queue: a collection of receiver buckets plus the monotone insertion counter. -/
structure PriorityToQueue where
  buckets : List ToItem
  nextSeq : Nat
deriving DecidableEq, Repr

/-- The empty two-level priority queue. -/
def PriorityToQueue.empty : PriorityToQueue := ⟨[], 0⟩

/-- Strict "higher priority" order on pending items: higher sender priority
first, ties resolved in favour of the earlier insertion sequence number. -/
def fromBetter (a b : FromItem) : Bool :=
  decide (b.Priority < a.Priority ∨ (a.Priority = b.Priority ∧ a.seq < b.seq))

/-- Strict "higher priority" order on receiver buckets: higher receiver
priority first, ties resolved in favour of the earlier insertion sequence. -/
def toBetter (a b : ToItem) : Bool :=
  decide (b.Priority < a.Priority ∨ (a.Priority = b.Priority ∧ a.seq < b.seq))

/-- Remove the best element of a list under the strict order `better`
(the heap pop of the modelled queues): returns the best element and the
remaining elements, or `none` on the empty list. -/
def pickBest (better : α → α → Bool) : List α → Option (α × List α)
  | [] => none
  | x :: xs =>
    match pickBest better xs with
    | none => some (x, [])
    | some (y, rest) => if better y x then some (y, x :: rest) else some (x, xs)

/-- Modelled from the spec: inserting a pending item into the bucket list of
the two-level queue — the first bucket keyed by the item's receiver receives
the item; if none exists a fresh bucket with the given receiver priority is
created (spec section 4.3, `InsertNew`). -/
def insertIntoBuckets (f : FromItem) (receiver toQuota seq : Nat) :
    List ToItem → List ToItem
  | [] => [⟨receiver, [f], toQuota, seq⟩]
  | t :: ts =>
    if t.Key = receiver then { t with Value := t.Value ++ [f] } :: ts
    else t :: insertIntoBuckets f receiver toQuota seq ts

/-- Modelled from the spec: `PriorityToQueue.InsertNew(block, toQuota, fromQuota)`
(spec section 4.3): insert the block keyed by its sender priority into its
receiver's bucket, creating the bucket with the given receiver priority when
absent, and advance the insertion counter. -/
def PriorityToQueue.InsertNew (q : PriorityToQueue) (b : AccountBlock)
    (toQuota fromQuota : Nat) : PriorityToQueue :=
  let f : FromItem := ⟨b.AccountAddress, b, fromQuota, q.nextSeq⟩
  ⟨insertIntoBuckets f b.ToAddress toQuota q.nextSeq q.buckets, q.nextSeq + 1⟩

/-- Modelled from the spec: `PriorityToQueue.Len()` — the total number of
queued pending items (spec section 4.3). -/
def PriorityToQueue.Len (q : PriorityToQueue) : Nat :=
  (q.buckets.map (fun t => t.Value.length)).sum

/-- The number of items queued for the (sender, receiver) pair `(sa, ra)`:
the observation used to state the blacklist properties. -/
def pairCount (q : PriorityToQueue) (sa ra : Nat) : Nat :=
  (q.buckets.map (fun t =>
    (t.Value.filter (fun it =>
      decide (it.Value.AccountAddress = sa ∧ it.Value.ToAddress = ra))).length)).sum

/-- `ContractWorker.isInBlackList(from, to)`: membership of the (sender,
receiver) pair in the blacklist.  The Go code keys the map by
`types.DataListHash(from.Bytes(), to.Bytes())`, a deterministic hash of the
pair; the hash is modelled as the pair itself. -/
def isInBlackList (bl : List (Nat × Nat)) (sa ra : Nat) : Bool :=
  bl.contains (sa, ra)

/-- `ContractWorker.addIntoBlackList(from, to)`: map insertion, modelled with
set semantics on a list of pairs. -/
def addIntoBlackList (bl : List (Nat × Nat)) (sa ra : Nat) : List (Nat × Nat) :=
  if isInBlackList bl sa ra then bl else (sa, ra) :: bl

/-- `ContractWorker.deleteBlackListItem(from, to)`: map deletion of the pair's
key. -/
def deleteBlackListItem (bl : List (Nat × Nat)) (sa ra : Nat) : List (Nat × Nat) :=
  bl.filter (fun p => decide (p ≠ (sa, ra)))

/-- One page returned by `UnconfirmedBlocksPool.GetUnconfirmedBlocks`: the
block list (`none` models Go's `nil` list) paired with an error flag
(`true` models a non-nil `err`). -/
abbrev Page := Option (List AccountBlock) × Bool

/-- The environment the scheduler's fetch path consumes: the bound address
list obtained at construction, the backing store (for each address the
sequence of pages indexed by `nextIndex`; indices past the end model the
store answering `nil`), the quota accessor at the worker's snapshot hash,
and the two fixed constants of the worker pool. -/
structure FetchEnv where
  contractAddressList : List Nat
  store : Nat → List Page
  quota : Nat → Nat
  CONTRACT_TASK_SIZE : Nat
  CONTRACT_FETCH_SIZE : Nat

/-- The mutable scheduler state that `FetchNewFromDb` reads and writes:
the priority queue, the blacklist, and the saved address cursor
`lastAddrIndex`. -/
structure FetchState where
  queue : PriorityToQueue
  blackList : List (Nat × Nat)
  lastAddrIndex : Nat
deriving Repr

/-- The inner `for _, v := range blockList` loop of `FetchNewFromDb`:
for every block of the page, skip it when its (sender, receiver) pair is
blacklisted, otherwise insert it into the priority queue with the receiver's
and sender's quota as priorities, counting the insertions. -/
def insertBlocks (quota : Nat → Nat) (bl : List (Nat × Nat)) :
    List AccountBlock → PriorityToQueue → Nat → PriorityToQueue × Nat
  | [], q, count => (q, count)
  | v :: vs, q, count =>
    if isInBlackList bl v.AccountAddress v.ToAddress then
      insertBlocks quota bl vs q count
    else
      insertBlocks quota bl vs
        (q.InsertNew v (quota v.ToAddress) (quota v.AccountAddress)) (count + 1)

/-- The paging loop of `FetchNewFromDb` for one address (the inner `for`):
fetch the page at the current index; a `nil` block list stops the loop, an
error stops the loop before inserting anything from the erroring page;
otherwise all non-blacklisted blocks of the page are inserted, and the loop
moves to the next page only while the address's insertion count stays below
`CONTRACT_FETCH_SIZE`. -/
def fetchPages (fetchSize : Nat) (quota : Nat → Nat) (bl : List (Nat × Nat)) :
    List Page → Nat → PriorityToQueue → PriorityToQueue
  | [], _, q => q
  | p :: rest, count, q =>
    match p.1 with
    | none => q
    | some blocks =>
      if p.2 then q
      else
        let r := insertBlocks quota bl blocks q count
        if r.2 < fetchSize then fetchPages fetchSize quota bl rest r.2 r.1
        else r.1

/-- The outer address loop of `FetchNewFromDb`
(`for ; i < len(list) && (i - lastAddrIndex) < CONTRACT_TASK_SIZE; i++`):
`budget` counts the remaining iterations of the batch.  Returns the final
index `i`, the resulting queue, and (for specification purposes) the list of
addresses that were scanned. -/
def fetchAddrs (env : FetchEnv) (bl : List (Nat × Nat)) :
    Nat → Nat → PriorityToQueue → Nat × PriorityToQueue × List Nat
  | 0, i, q => (i, q, [])
  | budget + 1, i, q =>
    if h : i < env.contractAddressList.length then
      let a := env.contractAddressList.get ⟨i, h⟩
      let q1 := fetchPages env.CONTRACT_FETCH_SIZE env.quota bl (env.store a) 0 q
      let r := fetchAddrs env bl budget (i + 1) q1
      (r.1, r.2.1, a :: r.2.2)
    else (i, q, [])

/-- `ContractWorker.FetchNewFromDb()`: scan one batch of addresses starting
at the saved cursor, populate the queue, store the final index back into the
cursor, and report a completed pass (resetting the cursor to 0) exactly when
the final index reached the end of the bound address list. -/
def FetchNewFromDb (env : FetchEnv) (s : FetchState) : FetchState × Bool :=
  let r := fetchAddrs env s.blackList env.CONTRACT_TASK_SIZE s.lastAddrIndex s.queue
  if env.contractAddressList.length ≤ r.1 then
    (⟨r.2.1, s.blackList, 0⟩, true)
  else
    (⟨r.2.1, s.blackList, r.1⟩, false)

/-- The closed form of the final index of one `FetchNewFromDb` batch scan
starting at cursor `last`. -/
def scanEnd (env : FetchEnv) (last : Nat) : Nat :=
  if last < env.contractAddressList.length then
    min env.contractAddressList.length (last + env.CONTRACT_TASK_SIZE)
  else last

/-- The `for !w.FetchNewFromDb() { if queue.Len() != 0 break }` loop of
`dispatchTask`: fetch repeatedly until a fetch reports a completed pass or
the queue becomes non-empty.  The returned flag records whether the final
fetch reported a completed pass.  `fuel` bounds the recursion; any value
above the address-list length is enough (proved below). -/
def fetchLoop (env : FetchEnv) : Nat → FetchState → FetchState × Bool
  | 0, s => (s, false)
  | fuel + 1, s =>
    let r := FetchNewFromDb env s
    if r.2 then (r.1, true)
    else if r.1.queue.Len ≠ 0 then (r.1, false)
    else fetchLoop env fuel r.1

/-- `ContractWorker.dispatchTask(index)`: when the queue is empty run the
fetch loop; if the queue is still empty return `nil`; otherwise
`heap.Pop` the top receiver bucket off the two-level queue and return the
top pending item popped from that bucket's inner queue.  The source never
pushes the popped bucket (or its remaining items) back. -/
def dispatchTask (env : FetchEnv) (s : FetchState) : Option FromItem × FetchState :=
  let s1 := if s.queue.Len = 0 then
      (fetchLoop env (env.contractAddressList.length + 1) s).1
    else s
  if s1.queue.Len = 0 then (none, s1)
  else
    match pickBest toBetter s1.queue.buckets with
    | none => (none, s1)
    | some (t, rest) =>
      match pickBest fromBetter t.Value with
      | none => (none, { s1 with queue := ⟨rest, s1.queue.nextSeq⟩ })
      | some (f, _) => (some f, { s1 with queue := ⟨rest, s1.queue.nextSeq⟩ })

/-- The scheduler status constants `Create`, `Start`, `Stop` (spec:
Created / Running / Stopped). -/
inductive WStatus where
  | Create
  | Start
  | Stop
deriving DecidableEq, Repr

/-- Observable actions the lifecycle methods perform on the scheduler's
collaborators: listener (un)subscription on the backing store, task
creation/start and stop calls, the dispatch-loop goroutine, and channel
operations. -/
inductive WEffect where
  | addContractLis
  | removeContractLis
  | taskNewAndStart (i : Nat)
  | spawnDispatcher
  | wakeAlarmSend
  | breakerSend
  | alarmClose
  | dispatcherAckWait
  | dispatcherChanClose
  | taskStopCall (slot : Option Nat)
  | tasksWait
deriving DecidableEq, Repr

/-- The `ContractWorker` fields the lifecycle claims are about.
`contractTasks` is the task slice allocated by the constructor (`none`
models a `nil` `*ContractTask` entry); `runningTasks` records which worker
tasks have been created and started and not yet stopped — the observable
effect of the (externally implemented) `ContractTask.Start`/`Stop`. -/
structure CWState where
  contractAddressList : List Nat
  status : WStatus
  isSleep : Bool
  contractTasks : List (Option Nat)
  runningTasks : List Nat
  subscribed : Bool
  blackList : List (Nat × Nat)
  lastAddrIndex : Nat
deriving DecidableEq, Repr

/-- `NewContractWorker(manager, accEvent)`: propagate a failing
`GetAddrListByGid` lookup, reject an empty bound-address list with an error,
and otherwise build the worker with status `Create`, an empty blacklist, a
task slice of `CONTRACT_TASK_SIZE` nil entries, and no task started.
The address-list lookup result is passed in as an `Except`. -/
def NewContractWorker (taskPoolSize : Nat)
    (addrRes : Except String (List Nat)) : Except String CWState :=
  match addrRes with
  | Except.error e => Except.error e
  | Except.ok addressList =>
    if addressList.length ≤ 0 then
      Except.error ("newContractWorker addressList nil")
    else
      Except.ok
        { contractAddressList := addressList
          status := WStatus.Create
          isSleep := false
          contractTasks := List.replicate taskPoolSize none
          runningTasks := []
          subscribed := false
          blackList := []
          lastAddrIndex := 0 }

/-- `ContractWorker.NewUnconfirmedTxAlarm()`: send on the wake channel only
when the dispatch loop is parked (`isSleep`); otherwise the call is a no-op.
Returns the emitted effects (the state is unchanged). -/
def NewUnconfirmedTxAlarmEffects (s : CWState) : List WEffect :=
  if s.isSleep then [WEffect.wakeAlarmSend] else []

/-- `ContractWorker.Start()` under the status mutex.  When the status is not
`Start`: subscribe the group listener, run
`for i, v := range w.contractTasks { v = NewContractTask(w, i, …); v.Start() }`
— note the source assigns the fresh task to the range variable `v`, so the
`contractTasks` slice itself keeps its entries — spawn the dispatcher
goroutine and set the status to `Start`.  When the status is already
`Start`: only call `NewUnconfirmedTxAlarm`. -/
def ContractWorker.Start (s : CWState) : CWState × List WEffect :=
  if s.status ≠ WStatus.Start then
    ({ s with
        subscribed := true
        runningTasks := s.runningTasks ++ List.range s.contractTasks.length
        status := WStatus.Start },
      WEffect.addContractLis ::
        ((List.range s.contractTasks.length).map WEffect.taskNewAndStart ++
          [WEffect.spawnDispatcher]))
  else (s, NewUnconfirmedTxAlarmEffects s)

/-- The `v.Stop()` calls `ContractWorker.Stop` issues over the task slice:
a `some` slot stops that task (removing it from the running set); a `nil`
slot stops nothing. -/
def stopSlots : List (Option Nat) → List Nat → List Nat
  | [], running => running
  | none :: ts, running => stopSlots ts running
  | some i :: ts, running => stopSlots ts (running.erase i)

/-- `ContractWorker.Stop()` under the status mutex.  When the status is not
`Stop`: signal the breaker, unsubscribe the group listener, mark sleeping,
close the wake channel, wait for the dispatcher's termination
acknowledgment and close its channel, call `Stop` on every entry of the
`contractTasks` slice (concurrently, then a `WaitGroup` barrier), and set
the status to `Stop`.  When the status is already `Stop`: do nothing. -/
def ContractWorker.Stop (s : CWState) : CWState × List WEffect :=
  if s.status ≠ WStatus.Stop then
    ({ s with
        subscribed := false
        isSleep := true
        runningTasks := stopSlots s.contractTasks s.runningTasks
        status := WStatus.Stop },
      [WEffect.breakerSend, WEffect.removeContractLis, WEffect.alarmClose,
        WEffect.dispatcherAckWait, WEffect.dispatcherChanClose] ++
        s.contractTasks.map WEffect.taskStopCall ++ [WEffect.tasksWait])
  else (s, [])

/-- Well-formedness of the two-level queue: no receiver bucket is empty.
It holds for every queue the scheduler can reach: `InsertNew` creates
buckets with one item and only ever appends, and the dispatch pop removes
whole buckets. -/
def QWF (q : PriorityToQueue) : Prop := ∀ t ∈ q.buckets, t.Value ≠ []

/-- A JSON-RPC error value: message and numeric code (`api.JsonRpc2Error`). -/
structure JsonRpc2Error where
  Message : String
  Code : Int
deriving DecidableEq, Repr

/-- A Go `error` value as the RPC layer observes it: either a plain error
carrying its message, or a `JsonRpc2Error`. -/
inductive GoError where
  | plain (msg : String)
  | rpc (e : JsonRpc2Error)
deriving DecidableEq, Repr

/-- `err.Error()`: the message of the error. -/
def GoError.Error : GoError → String
  | GoError.plain m => m
  | GoError.rpc e => e.Message

/-- The `concernedErrorMap` built by the package `init`: the decrypt-key
message maps to code 4001, the already-locked message to code 4002, and the
balance-not-enough message to code 5001.  The three registered messages
(`walleterrors.ErrDecryptKey`, `walleterrors.ErrAlreadyLocked`,
`ledgererrors.ErrBalanceNotEnough`) come from packages outside the embedded
code, so they are parameters. -/
def concernedErrorMap (decryptMsg lockedMsg balanceMsg : String) :
    List (String × JsonRpc2Error) :=
  [(decryptMsg, ⟨decryptMsg, 4001⟩),
   (lockedMsg, ⟨lockedMsg, 4002⟩),
   (balanceMsg, ⟨balanceMsg, 5001⟩)]

/-- `api.TryMakeConcernedError(err)`: `nil` maps to `(nil, false)`; an error
whose message is registered in the map produces the registered
`JsonRpc2Error` and `true`; any other error comes back unchanged with
`false`. -/
def TryMakeConcernedError (m : List (String × JsonRpc2Error)) :
    Option GoError → Option GoError × Bool
  | none => (none, false)
  | some err =>
    match m.lookup err.Error with
    | some rerr => (some (GoError.rpc rerr), true)
    | none => (some err, false)

/-!  Shared lemmas about the embedded operations. -/

theorem pickBest_isSome (better : α → α → Bool) (x : α) (xs : List α) :
    (pickBest better (x :: xs)).isSome := by
  cases h : pickBest better xs with
  | none => simp [pickBest, h]
  | some p =>
    obtain ⟨y, rest⟩ := p
    by_cases hb : better y x <;> simp [pickBest, h, hb]

theorem pickBest_mem {better : α → α → Bool} :
    ∀ {l : List α} {y : α} {rest : List α},
      pickBest better l = some (y, rest) → y ∈ l := by
  intro l
  induction l with
  | nil => intro y rest h; simp [pickBest] at h
  | cons x xs ih =>
    intro y rest h
    rw [pickBest] at h
    cases hx : pickBest better xs with
    | none =>
      rw [hx] at h
      simp at h
      exact h.1 ▸ List.mem_cons_self x xs
    | some p =>
      obtain ⟨z, r⟩ := p
      rw [hx] at h
      by_cases hb : better z x
      · simp [hb] at h
        exact List.mem_cons_of_mem x (h.1 ▸ ih hx)
      · simp [hb] at h
        exact h.1 ▸ List.mem_cons_self x xs

theorem Len_ne_zero_buckets {q : PriorityToQueue} (h : q.Len ≠ 0) :
    q.buckets ≠ [] := by
  intro hb
  exact h (by simp [PriorityToQueue.Len, hb])

theorem QWF_insertIntoBuckets (f : FromItem) (receiver tq sq : Nat) :
    ∀ bs : List ToItem, (∀ t ∈ bs, t.Value ≠ []) →
      ∀ t ∈ insertIntoBuckets f receiver tq sq bs, t.Value ≠ [] := by
  intro bs
  induction bs with
  | nil =>
    intro _ t ht
    simp [insertIntoBuckets] at ht
    simp [ht]
  | cons b rest ih =>
    intro hwf t ht
    rw [insertIntoBuckets] at ht
    by_cases hk : b.Key = receiver
    · rw [if_pos hk] at ht
      rcases List.mem_cons.1 ht with h | h
      · subst h; simp
      · exact hwf t (List.mem_cons_of_mem b h)
    · rw [if_neg hk] at ht
      rcases List.mem_cons.1 ht with h | h
      · exact h ▸ hwf b (List.mem_cons_self b rest)
      · exact ih (fun u hu => hwf u (List.mem_cons_of_mem b hu)) t h

theorem QWF_InsertNew {q : PriorityToQueue} (h : QWF q)
    (b : AccountBlock) (tq fq : Nat) : QWF (q.InsertNew b tq fq) := by
  intro t ht
  exact QWF_insertIntoBuckets _ _ _ _ q.buckets h t ht

theorem QWF_insertBlocks (quota : Nat → Nat) (bl : List (Nat × Nat)) :
    ∀ (blocks : List AccountBlock) (q : PriorityToQueue) (count : Nat),
      QWF q → QWF (insertBlocks quota bl blocks q count).1 := by
  intro blocks
  induction blocks with
  | nil => intro q count h; exact h
  | cons v vs ih =>
    intro q count h
    rw [insertBlocks]
    by_cases hb : isInBlackList bl v.AccountAddress v.ToAddress
    · rw [if_pos hb]; exact ih q count h
    · rw [if_neg hb]; exact ih _ _ (QWF_InsertNew h v _ _)

theorem QWF_fetchPages (fetchSize : Nat) (quota : Nat → Nat)
    (bl : List (Nat × Nat)) :
    ∀ (pages : List Page) (count : Nat) (q : PriorityToQueue),
      QWF q → QWF (fetchPages fetchSize quota bl pages count q) := by
  intro pages
  induction pages with
  | nil => intro count q h; exact h
  | cons p rest ih =>
    intro count q h
    rw [fetchPages]
    cases hp : p.1 with
    | none => exact h
    | some blocks =>
      by_cases he : p.2
      · simp [he]; exact h
      · simp [he]
        split
        · exact ih _ _ (QWF_insertBlocks quota bl blocks q count h)
        · exact QWF_insertBlocks quota bl blocks q count h

theorem QWF_fetchAddrs (env : FetchEnv) (bl : List (Nat × Nat)) :
    ∀ (budget i : Nat) (q : PriorityToQueue),
      QWF q → QWF (fetchAddrs env bl budget i q).2.1 := by
  intro budget
  induction budget with
  | zero => intro i q h; exact h
  | succ b ih =>
    intro i q h
    rw [fetchAddrs]
    by_cases hi : i < env.contractAddressList.length
    · simp [hi]
      exact ih (i + 1) _ (QWF_fetchPages _ _ _ _ _ _ h)
    · simp [hi]; exact h

theorem QWF_FetchNewFromDb (env : FetchEnv) (s : FetchState) (h : QWF s.queue) :
    QWF (FetchNewFromDb env s).1.queue := by
  rw [FetchNewFromDb]
  split
  · exact QWF_fetchAddrs env s.blackList _ _ _ h
  · exact QWF_fetchAddrs env s.blackList _ _ _ h

theorem QWF_fetchLoop (env : FetchEnv) :
    ∀ (fuel : Nat) (s : FetchState), QWF s.queue →
      QWF (fetchLoop env fuel s).1.queue := by
  intro fuel
  induction fuel with
  | zero => intro s h; exact h
  | succ f ih =>
    intro s h
    rw [fetchLoop]
    split
    · exact QWF_FetchNewFromDb env s h
    · split
      · exact QWF_FetchNewFromDb env s h
      · exact ih _ (QWF_FetchNewFromDb env s h)

theorem fetchAddrs_fst (env : FetchEnv) (bl : List (Nat × Nat)) :
    ∀ (budget i : Nat) (q : PriorityToQueue),
      (fetchAddrs env bl budget i q).1 =
        if i < env.contractAddressList.length then
          min env.contractAddressList.length (i + budget)
        else i := by
  intro budget
  induction budget with
  | zero =>
    intro i q
    rw [fetchAddrs]
    split
    · omega
    · rfl
  | succ b ih =>
    intro i q
    rw [fetchAddrs]
    by_cases h : i < env.contractAddressList.length
    · simp only [h, dif_pos, if_pos]
      rw [ih]
      by_cases h2 : i + 1 < env.contractAddressList.length
      · rw [if_pos h2]; omega
      · rw [if_neg h2]; omega
    · simp [h]

theorem fetchAddrs_scanned (env : FetchEnv) (bl : List (Nat × Nat)) :
    ∀ (budget i : Nat) (q : PriorityToQueue),
      (fetchAddrs env bl budget i q).2.2 =
        (env.contractAddressList.drop i).take budget := by
  intro budget
  induction budget with
  | zero => intro i q; rw [fetchAddrs]; simp
  | succ b ih =>
    intro i q
    rw [fetchAddrs]
    by_cases h : i < env.contractAddressList.length
    · simp only [h, dif_pos]
      rw [ih]
      rw [← List.get_cons_drop env.contractAddressList ⟨i, h⟩]
      rfl
    · simp only [h, dif_neg, not_false_iff]
      rw [List.drop_eq_nil_of_le (by omega)]
      simp

theorem FetchNewFromDb_cursor (env : FetchEnv) (s : FetchState) :
    (FetchNewFromDb env s).1.lastAddrIndex =
      (if env.contractAddressList.length ≤ scanEnd env s.lastAddrIndex then 0
       else scanEnd env s.lastAddrIndex) ∧
    ((FetchNewFromDb env s).2 = true ↔
      env.contractAddressList.length ≤ scanEnd env s.lastAddrIndex) := by
  have hs : (fetchAddrs env s.blackList env.CONTRACT_TASK_SIZE s.lastAddrIndex
      s.queue).1 = scanEnd env s.lastAddrIndex := by
    rw [fetchAddrs_fst, scanEnd]
  by_cases h : env.contractAddressList.length ≤ scanEnd env s.lastAddrIndex
  · simp only [FetchNewFromDb, hs, h, if_pos]
    simp [h]
  · simp only [FetchNewFromDb, hs]
    simp [h]

theorem FetchNewFromDb_progress (env : FetchEnv) (s : FetchState)
    (hT : 1 ≤ env.CONTRACT_TASK_SIZE)
    (hfalse : (FetchNewFromDb env s).2 = false) :
    s.lastAddrIndex < (FetchNewFromDb env s).1.lastAddrIndex ∧
    (FetchNewFromDb env s).1.lastAddrIndex < env.contractAddressList.length := by
  have hc := FetchNewFromDb_cursor env s
  have hlt : ¬ env.contractAddressList.length ≤ scanEnd env s.lastAddrIndex := by
    intro hle
    rw [hc.2.mpr hle] at hfalse
    exact Bool.noConfusion hfalse
  have hcur : (FetchNewFromDb env s).1.lastAddrIndex =
      scanEnd env s.lastAddrIndex := by rw [hc.1, if_neg hlt]
  rw [hcur]
  rw [scanEnd] at hlt ⊢
  by_cases hi : s.lastAddrIndex < env.contractAddressList.length
  · rw [if_pos hi] at hlt ⊢
    omega
  · rw [if_neg hi] at hlt ⊢
    omega

theorem fetchLoop_exit (env : FetchEnv) (hT : 1 ≤ env.CONTRACT_TASK_SIZE) :
    ∀ (fuel : Nat) (s : FetchState),
      env.contractAddressList.length - s.lastAddrIndex < fuel →
      (fetchLoop env fuel s).2 = true ∨ (fetchLoop env fuel s).1.queue.Len ≠ 0 := by
  intro fuel
  induction fuel with
  | zero => intro s h; omega
  | succ f ih =>
    intro s h
    rw [fetchLoop]
    by_cases h1 : (FetchNewFromDb env s).2 = true
    · simp [h1]
    · have h1f : (FetchNewFromDb env s).2 = false := by
        simpa using h1
      by_cases h2 : (FetchNewFromDb env s).1.queue.Len ≠ 0
      · simp only [h1f, Bool.false_eq_true, if_neg, if_pos h2, not_false_iff]
        exact Or.inr h2
      · have hp := FetchNewFromDb_progress env s hT h1f
        simp only [h1f, Bool.false_eq_true, if_neg, if_neg h2, not_false_iff]
        exact ih _ (by omega)

theorem pairCount_insertIntoBuckets (sa ra : Nat) (f : FromItem)
    (receiver tq sq : Nat) :
    ∀ bs : List ToItem,
      ((insertIntoBuckets f receiver tq sq bs).map (fun t =>
        (t.Value.filter (fun it =>
          decide (it.Value.AccountAddress = sa ∧ it.Value.ToAddress = ra))).length)).sum =
      ((bs.map (fun t =>
        (t.Value.filter (fun it =>
          decide (it.Value.AccountAddress = sa ∧ it.Value.ToAddress = ra))).length)).sum +
        (if f.Value.AccountAddress = sa ∧ f.Value.ToAddress = ra then 1 else 0)) := by
  intro bs
  induction bs with
  | nil =>
    rw [insertIntoBuckets]
    by_cases hf : f.Value.AccountAddress = sa ∧ f.Value.ToAddress = ra
    · simp [hf]
    · simp [hf]
  | cons t ts ih =>
    rw [insertIntoBuckets]
    by_cases hk : t.Key = receiver
    · rw [if_pos hk]
      simp only [List.map_cons, List.sum_cons, List.filter_append]
      by_cases hf : f.Value.AccountAddress = sa ∧ f.Value.ToAddress = ra
      · simp [hf]; omega
      · simp [hf]
    · rw [if_neg hk]
      simp only [List.map_cons, List.sum_cons, ih]
      omega

theorem pairCount_InsertNew (q : PriorityToQueue) (b : AccountBlock)
    (tq fq sa ra : Nat) :
    pairCount (q.InsertNew b tq fq) sa ra =
      pairCount q sa ra +
        (if b.AccountAddress = sa ∧ b.ToAddress = ra then 1 else 0) := by
  rw [pairCount, pairCount, PriorityToQueue.InsertNew]
  exact pairCount_insertIntoBuckets sa ra
    ⟨b.AccountAddress, b, fq, q.nextSeq⟩ b.ToAddress tq q.nextSeq q.buckets

theorem pairCount_insertBlocks_bl (quota : Nat → Nat) (bl : List (Nat × Nat))
    (sa ra : Nat) (hbl : isInBlackList bl sa ra = true) :
    ∀ (blocks : List AccountBlock) (q : PriorityToQueue) (count : Nat),
      pairCount (insertBlocks quota bl blocks q count).1 sa ra =
        pairCount q sa ra := by
  intro blocks
  induction blocks with
  | nil => intro q count; rfl
  | cons v vs ih =>
    intro q count
    rw [insertBlocks]
    by_cases hv : isInBlackList bl v.AccountAddress v.ToAddress
    · rw [if_pos hv]
      exact ih q count
    · rw [if_neg hv]
      rw [ih, pairCount_InsertNew]
      have hnp : ¬ (v.AccountAddress = sa ∧ v.ToAddress = ra) := by
        rintro ⟨h1, h2⟩
        exact hv (by rw [h1, h2]; exact hbl)
      rw [if_neg hnp]
      omega

theorem pairCount_fetchPages_bl (fetchSize : Nat) (quota : Nat → Nat)
    (bl : List (Nat × Nat)) (sa ra : Nat)
    (hbl : isInBlackList bl sa ra = true) :
    ∀ (pages : List Page) (count : Nat) (q : PriorityToQueue),
      pairCount (fetchPages fetchSize quota bl pages count q) sa ra =
        pairCount q sa ra := by
  intro pages
  induction pages with
  | nil => intro count q; rfl
  | cons p rest ih =>
    intro count q
    rw [fetchPages]
    cases hp : p.1 with
    | none => rfl
    | some blocks =>
      by_cases he : p.2
      · simp [he]
      · simp only [he, Bool.false_eq_true, if_neg, not_false_iff]
        split
        · rw [ih, pairCount_insertBlocks_bl quota bl sa ra hbl]
        · rw [pairCount_insertBlocks_bl quota bl sa ra hbl]

theorem pairCount_fetchAddrs_bl (env : FetchEnv) (bl : List (Nat × Nat))
    (sa ra : Nat) (hbl : isInBlackList bl sa ra = true) :
    ∀ (budget i : Nat) (q : PriorityToQueue),
      pairCount (fetchAddrs env bl budget i q).2.1 sa ra = pairCount q sa ra := by
  intro budget
  induction budget with
  | zero => intro i q; rfl
  | succ b ih =>
    intro i q
    rw [fetchAddrs]
    by_cases hi : i < env.contractAddressList.length
    · simp only [hi, dif_pos]
      rw [ih, pairCount_fetchPages_bl _ _ _ _ _ hbl]
    · simp [hi]

theorem isInBlackList_delete (bl : List (Nat × Nat)) (sa ra : Nat) :
    isInBlackList (deleteBlackListItem bl sa ra) sa ra = false := by
  simp [isInBlackList, deleteBlackListItem, List.contains]

/-!  Theorems settling the claims. -/

/-- C1: the claim says a dispatch pop from a non-empty queue removes and
returns exactly one item, the length drops by exactly one, and the other
items of the popped bucket stay queued.  The code violates this: with one
receiver bucket holding the two items (sender 11, priority 5) and
(sender 12, priority 8), the dispatch pop returns the sender-12 item but
`heap.Pop` removed the whole bucket, so the queue length drops from 2 to 0
and the sender-11 item is silently dropped. -/
theorem C1_dispatch_pop_drops_bucket_items :
    (((PriorityToQueue.empty.InsertNew ⟨11, 1, 101⟩ 10 5).InsertNew
        ⟨12, 1, 102⟩ 10 8).Len = 2) ∧
    ((dispatchTask ⟨[], fun _ => [], fun _ => 0, 1, 1⟩
        ⟨(PriorityToQueue.empty.InsertNew ⟨11, 1, 101⟩ 10 5).InsertNew
          ⟨12, 1, 102⟩ 10 8, [], 0⟩).1 =
      some ⟨12, ⟨12, 1, 102⟩, 8, 1⟩) ∧
    ((dispatchTask ⟨[], fun _ => [], fun _ => 0, 1, 1⟩
        ⟨(PriorityToQueue.empty.InsertNew ⟨11, 1, 101⟩ 10 5).InsertNew
          ⟨12, 1, 102⟩ 10 8, [], 0⟩).2.queue.Len = 0) := by
  refine ⟨rfl, rfl, rfl⟩

/-- C2: Scenario A of the spec — insert receiver 1 (priority 10) with
senders 11 (priority 5) and 12 (priority 8), then receiver 2 (priority 20)
with sender 13 (priority 1).  The claim expects the pop sequence
(receiver 2, sender 13), (receiver 1, sender 12), (receiver 1, sender 11).
The code produces the first two pops but the third returns `nil`: the
second pop removed receiver 1's whole bucket, dropping the sender-11 item,
so the expected third pop cannot happen. -/
theorem C2_scenario_a_third_pop_lost :
    let env : FetchEnv := ⟨[], fun _ => [], fun _ => 0, 1, 1⟩
    let qA := ((PriorityToQueue.empty.InsertNew ⟨11, 1, 101⟩ 10 5).InsertNew
        ⟨12, 1, 102⟩ 10 8).InsertNew ⟨13, 2, 103⟩ 20 1
    let r1 := dispatchTask env ⟨qA, [], 0⟩
    let r2 := dispatchTask env r1.2
    let r3 := dispatchTask env r2.2
    r1.1 = some ⟨13, ⟨13, 2, 103⟩, 1, 2⟩ ∧
    r2.1 = some ⟨12, ⟨12, 1, 102⟩, 8, 1⟩ ∧
    r3.1 = none := by
  exact ⟨rfl, rfl, rfl⟩

/-- C6: the claim says `Stop()` when Running stops every worker and waits
for all of them (and that `Stop()` on a stopped scheduler is an error-free
no-op).  The code violates the first part: `Start()` assigns each freshly
created task to the `range` variable `v` instead of `w.contractTasks[i]`,
so the task slice keeps only nil entries and `Stop()`'s loop over it stops
none of the two started workers — both are still running after `Stop()`
returns.  The no-op half does hold, as the last two conjuncts show. -/
theorem C6_stop_leaves_started_tasks_running :
    let w0 : CWState := ⟨[7], WStatus.Create, false, [none, none], [], false, [], 0⟩
    let w1 := (ContractWorker.Start w0).1
    let w2 := (ContractWorker.Stop w1).1
    w1.runningTasks = [0, 1] ∧
    w2.status = WStatus.Stop ∧
    w2.runningTasks = [0, 1] ∧
    (ContractWorker.Stop w2).1 = w2 ∧
    (ContractWorker.Stop w2).2 = [] := by
  exact ⟨rfl, rfl, rfl, by decide, rfl⟩

/-- C4: `NewContractWorker` propagates a failing address-list lookup as an
error, rejects an empty bound-address list with a descriptive error (in
both cases no worker value is produced, hence no worker task exists), and
for a non-empty list returns the freshly initialised worker — status
`Create`, nothing subscribed, no task started — with no error. -/
theorem C4_NewContractWorker_spec (n : Nat) (res : Except String (List Nat)) :
    (∀ e, res = Except.error e → NewContractWorker n res = Except.error e) ∧
    (∀ l, res = Except.ok l → l = [] →
      NewContractWorker n res =
        Except.error ("newContractWorker addressList nil")) ∧
    (∀ l, res = Except.ok l → l ≠ [] →
      NewContractWorker n res =
        Except.ok
          { contractAddressList := l
            status := WStatus.Create
            isSleep := false
            contractTasks := List.replicate n none
            runningTasks := []
            subscribed := false
            blackList := []
            lastAddrIndex := 0 }) := by
  refine ⟨?_, ?_, ?_⟩
  · rintro e rfl
    rfl
  · rintro l rfl rfl
    rfl
  · rintro l rfl hl
    have : ¬ l.length ≤ 0 := by
      simpa [Nat.le_zero, List.length_eq_zero] using hl
    simp [NewContractWorker, this]

/-- C4 witness: the empty-list and the non-empty-list cases at concrete
inputs. -/
theorem C4_NewContractWorker_spec_witness :
    NewContractWorker 2 (Except.ok []) =
      Except.error ("newContractWorker addressList nil") ∧
    NewContractWorker 2 (Except.ok [7]) =
      Except.ok
        { contractAddressList := [7]
          status := WStatus.Create
          isSleep := false
          contractTasks := [none, none]
          runningTasks := []
          subscribed := false
          blackList := []
          lastAddrIndex := 0 } := by
  constructor
  · exact (C4_NewContractWorker_spec 2 (Except.ok [])).2.1 [] rfl rfl
  · exact (C4_NewContractWorker_spec 2 (Except.ok [7])).2.2 [7] rfl (by decide)

/-- C5: when the scheduler is not Running, `Start()` subscribes the group
listener, creates and starts one worker task per pool slot, spawns the
dispatch loop and transitions to Running; when it is already Running, the
state is untouched and the only effect is one invocation of the
non-destructive wake alarm (which emits at most one signal, delivered only
while the dispatch loop is parked). -/
theorem C5_Start_spec (s : CWState) :
    (s.status ≠ WStatus.Start →
      (ContractWorker.Start s).1.subscribed = true ∧
      (ContractWorker.Start s).1.status = WStatus.Start ∧
      (ContractWorker.Start s).2.countP
          (fun e => match e with | WEffect.taskNewAndStart _ => true | _ => false) =
        s.contractTasks.length ∧
      WEffect.spawnDispatcher ∈ (ContractWorker.Start s).2 ∧
      WEffect.addContractLis ∈ (ContractWorker.Start s).2 ∧
      (ContractWorker.Start s).1.runningTasks =
        s.runningTasks ++ List.range s.contractTasks.length) ∧
    (s.status = WStatus.Start →
      (ContractWorker.Start s).1 = s ∧
      (ContractWorker.Start s).2 = NewUnconfirmedTxAlarmEffects s ∧
      (ContractWorker.Start s).2.length ≤ 1) := by
  constructor
  · intro h
    have hp : ∀ l : List Nat, (l.map WEffect.taskNewAndStart).countP
        (fun e => match e with
          | WEffect.taskNewAndStart _ => true
          | _ => false) = l.length := by
      intro l
      induction l with
      | nil => rfl
      | cons a t ih => simp [List.countP_cons, ih]
    refine ⟨?_, ?_, ?_, ?_, ?_, ?_⟩
    · simp [ContractWorker.Start, h]
    · simp [ContractWorker.Start, h]
    · simp only [ContractWorker.Start, h, if_pos, ite_not, if_neg,
        not_true_eq_false, reduceIte]
      rw [List.countP_cons, List.countP_append, hp]
      simp
    · simp [ContractWorker.Start, h]
    · simp [ContractWorker.Start, h]
    · simp [ContractWorker.Start, h]
  · intro h
    refine ⟨?_, ?_, ?_⟩ <;>
      simp [ContractWorker.Start, h, NewUnconfirmedTxAlarmEffects]
    cases s.isSleep <;> simp

/-- C5 witness: a not-yet-running scheduler transitions to Running, and a
running scheduler is left unchanged. -/
theorem C5_Start_spec_witness :
    (ContractWorker.Start
        ⟨[7], WStatus.Create, false, [none], [], false, [], 0⟩).1.status =
      WStatus.Start ∧
    (ContractWorker.Start
        ⟨[7], WStatus.Start, true, [none], [0], true, [], 0⟩).1 =
      ⟨[7], WStatus.Start, true, [none], [0], true, [], 0⟩ := by
  constructor
  · exact ((C5_Start_spec ⟨[7], WStatus.Create, false, [none], [], false, [], 0⟩).1
      (by decide)).2.1
  · exact ((C5_Start_spec ⟨[7], WStatus.Start, true, [none], [0], true, [], 0⟩).2
      rfl).1

/-- C10: `TryMakeConcernedError` maps `nil` to `(nil, false)`, maps an error
whose message is one of the three registered messages to the corresponding
`JsonRpc2Error` — decrypt-key to code 4001, already-locked to code 4002,
balance-not-enough to code 5001 — paired with `true`, and returns every
other error unchanged with `false`.  The three registered messages are
distinct in the source packages, which the hypotheses record. -/
theorem C10_TryMakeConcernedError_spec (dk lk bn : String)
    (hdl : dk ≠ lk) (hdb : dk ≠ bn) (hlb : lk ≠ bn) :
    TryMakeConcernedError (concernedErrorMap dk lk bn) none = (none, false) ∧
    (∀ e : GoError, e.Error = dk →
      TryMakeConcernedError (concernedErrorMap dk lk bn) (some e) =
        (some (GoError.rpc ⟨dk, 4001⟩), true)) ∧
    (∀ e : GoError, e.Error = lk →
      TryMakeConcernedError (concernedErrorMap dk lk bn) (some e) =
        (some (GoError.rpc ⟨lk, 4002⟩), true)) ∧
    (∀ e : GoError, e.Error = bn →
      TryMakeConcernedError (concernedErrorMap dk lk bn) (some e) =
        (some (GoError.rpc ⟨bn, 5001⟩), true)) ∧
    (∀ e : GoError, e.Error ≠ dk → e.Error ≠ lk → e.Error ≠ bn →
      TryMakeConcernedError (concernedErrorMap dk lk bn) (some e) =
        (some e, false)) := by
  refine ⟨rfl, ?_, ?_, ?_, ?_⟩
  · intro e he
    simp [TryMakeConcernedError, concernedErrorMap, List.lookup, he]
  · intro e he
    have b1 : (lk == dk) = false := beq_eq_false_iff_ne.2 (Ne.symm hdl)
    simp [TryMakeConcernedError, concernedErrorMap, List.lookup, he, b1]
  · intro e he
    have b1 : (bn == dk) = false := beq_eq_false_iff_ne.2 (Ne.symm hdb)
    have b2 : (bn == lk) = false := beq_eq_false_iff_ne.2 (Ne.symm hlb)
    simp [TryMakeConcernedError, concernedErrorMap, List.lookup, he, b1, b2]
  · intro e h1 h2 h3
    have b1 : (e.Error == dk) = false := beq_eq_false_iff_ne.2 h1
    have b2 : (e.Error == lk) = false := beq_eq_false_iff_ne.2 h2
    have b3 : (e.Error == bn) = false := beq_eq_false_iff_ne.2 h3
    simp [TryMakeConcernedError, concernedErrorMap, List.lookup, b1, b2, b3]

/-- C10 witness: the nil case, a registered message and an unregistered
message, at three concrete distinct messages. -/
theorem C10_TryMakeConcernedError_spec_witness :
    TryMakeConcernedError
        (concernedErrorMap ("error decrypt key") ("the address was previously unlocked")
          ("balance not enough")) none = (none, false) ∧
    TryMakeConcernedError
        (concernedErrorMap ("error decrypt key") ("the address was previously unlocked")
          ("balance not enough"))
        (some (GoError.plain ("the address was previously unlocked"))) =
      (some (GoError.rpc ⟨("the address was previously unlocked"), 4002⟩), true) ∧
    TryMakeConcernedError
        (concernedErrorMap ("error decrypt key") ("the address was previously unlocked")
          ("balance not enough"))
        (some (GoError.plain ("some other failure"))) =
      (some (GoError.plain ("some other failure")), false) := by
  refine ⟨?_, ?_, ?_⟩
  · exact (C10_TryMakeConcernedError_spec _ _ _ (by decide) (by decide) (by decide)).1
  · exact (C10_TryMakeConcernedError_spec _ _ _ (by decide) (by decide)
      (by decide)).2.2.1 (GoError.plain ("the address was previously unlocked")) rfl
  · exact (C10_TryMakeConcernedError_spec _ _ _ (by decide) (by decide)
      (by decide)).2.2.2.2 (GoError.plain ("some other failure"))
      (by decide) (by decide) (by decide)

/-- C8: one `FetchNewFromDb` call scans exactly the batch of bound
addresses that starts at the saved cursor, advances the cursor to the end
of that batch (`scanEnd`), resets it to 0 exactly when the scan reached or
passed the end of the list, and returns `true` exactly in that case; when
it returns `false` the cursor strictly advanced, so repeated calls progress
around the list. -/
theorem C8_FetchNewFromDb_cursor_spec (env : FetchEnv) (s : FetchState)
    (hT : 1 ≤ env.CONTRACT_TASK_SIZE) :
    (fetchAddrs env s.blackList env.CONTRACT_TASK_SIZE s.lastAddrIndex
        s.queue).2.2 =
      (env.contractAddressList.drop s.lastAddrIndex).take
        env.CONTRACT_TASK_SIZE ∧
    (FetchNewFromDb env s).1.lastAddrIndex =
      (if env.contractAddressList.length ≤ scanEnd env s.lastAddrIndex then 0
       else scanEnd env s.lastAddrIndex) ∧
    ((FetchNewFromDb env s).2 = true ↔
      env.contractAddressList.length ≤ scanEnd env s.lastAddrIndex) ∧
    ((FetchNewFromDb env s).1.lastAddrIndex = 0 ↔
      (FetchNewFromDb env s).2 = true) ∧
    ((FetchNewFromDb env s).2 = false →
      s.lastAddrIndex < (FetchNewFromDb env s).1.lastAddrIndex) := by
  have hc := FetchNewFromDb_cursor env s
  refine ⟨fetchAddrs_scanned env s.blackList _ _ _, hc.1, hc.2, ?_, ?_⟩
  · constructor
    · intro h0
      by_contra hf
      have hf2 : (FetchNewFromDb env s).2 = false := by simpa using hf
      have hp := FetchNewFromDb_progress env s hT hf2
      omega
    · intro ht
      rw [hc.1, if_pos (hc.2.mp ht)]
  · intro hf
    exact (FetchNewFromDb_progress env s hT hf).1

/-- C8 witness: three bound addresses, batch size two, cursor zero — the
fetch scans the first two addresses, advances the cursor to 2 and reports
no full pass; from cursor 2 it scans the last address, wraps the cursor to
0 and reports a full pass. -/
theorem C8_FetchNewFromDb_cursor_spec_witness :
    (fetchAddrs ⟨[3, 4, 5], fun _ => [], fun _ => 0, 2, 1⟩ [] 2 0
        PriorityToQueue.empty).2.2 = [3, 4] ∧
    (FetchNewFromDb ⟨[3, 4, 5], fun _ => [], fun _ => 0, 2, 1⟩
        ⟨PriorityToQueue.empty, [], 0⟩).1.lastAddrIndex = 2 ∧
    ((FetchNewFromDb ⟨[3, 4, 5], fun _ => [], fun _ => 0, 2, 1⟩
        ⟨PriorityToQueue.empty, [], 2⟩).2 = true ↔
      (3 : Nat) ≤ scanEnd ⟨[3, 4, 5], fun _ => [], fun _ => 0, 2, 1⟩ 2) := by
  have h1 := C8_FetchNewFromDb_cursor_spec
    ⟨[3, 4, 5], fun _ => [], fun _ => 0, 2, 1⟩
    ⟨PriorityToQueue.empty, [], 0⟩ (by decide)
  have h2 := C8_FetchNewFromDb_cursor_spec
    ⟨[3, 4, 5], fun _ => [], fun _ => 0, 2, 1⟩
    ⟨PriorityToQueue.empty, [], 2⟩ (by decide)
  exact ⟨h1.1.trans rfl, (h1.2.1).trans rfl, h2.2.2.1⟩

/-- C9: a backing-store error never escapes the fetch.  An erroring page
stops the paging of its address before inserting anything from that page
(the queue is returned untouched and the remaining pages are never read),
a `nil` page does the same, and the fetch still returns normally: its
full-pass boolean and resulting cursor are exactly those of a fetch run
against any other store — errors only affect which items get queued. -/
theorem C9_fetch_error_isolated (env : FetchEnv) (s : FetchState) :
    (∀ (fetchSize : Nat) (quota : Nat → Nat) (bl : List (Nat × Nat))
        (blocks : List AccountBlock) (rest : List Page) (count : Nat)
        (q : PriorityToQueue),
      fetchPages fetchSize quota bl ((some blocks, true) :: rest) count q = q) ∧
    (∀ (fetchSize : Nat) (quota : Nat → Nat) (bl : List (Nat × Nat)) (e : Bool)
        (rest : List Page) (count : Nat) (q : PriorityToQueue),
      fetchPages fetchSize quota bl ((none, e) :: rest) count q = q) ∧
    (∀ (env2 : FetchEnv) (s2 : FetchState),
      env2.contractAddressList = env.contractAddressList →
      env2.CONTRACT_TASK_SIZE = env.CONTRACT_TASK_SIZE →
      s2.lastAddrIndex = s.lastAddrIndex →
      (FetchNewFromDb env2 s2).2 = (FetchNewFromDb env s).2 ∧
      (FetchNewFromDb env2 s2).1.lastAddrIndex =
        (FetchNewFromDb env s).1.lastAddrIndex) := by
  refine ⟨fun _ _ _ _ _ _ _ => rfl, fun _ _ _ _ _ _ _ => rfl, ?_⟩
  intro env2 s2 hl hT hi
  have h1 := FetchNewFromDb_cursor env2 s2
  have h2 := FetchNewFromDb_cursor env s
  have he : scanEnd env2 s2.lastAddrIndex = scanEnd env s.lastAddrIndex := by
    rw [scanEnd, scanEnd, hl, hT, hi]
  have hiff : ((FetchNewFromDb env2 s2).2 = true ↔
      env.contractAddressList.length ≤ scanEnd env s.lastAddrIndex) := by
    rw [h1.2, he, hl]
  constructor
  · by_cases hq : env.contractAddressList.length ≤ scanEnd env s.lastAddrIndex
    · rw [hiff.mpr hq, h2.2.mpr hq]
    · have a1 : (FetchNewFromDb env2 s2).2 = false := by
        have := fun ht => hq (hiff.mp ht)
        simpa using this
      have a2 : (FetchNewFromDb env s).2 = false := by
        have := fun ht => hq (h2.2.mp ht)
        simpa using this
      rw [a1, a2]
  · rw [h1.1, h2.1, he, hl]

/-- C9 witness: a store whose only page for the single bound address errors
(with a non-empty block list) inserts nothing, and the fetch reports the
same completed pass and cursor as against an empty store. -/
theorem C9_fetch_error_isolated_witness :
    fetchPages 1 (fun _ => 0) [] [(some [⟨11, 1, 101⟩], true)] 0
      PriorityToQueue.empty = PriorityToQueue.empty ∧
    (FetchNewFromDb ⟨[3], fun _ => [(some [⟨11, 1, 101⟩], true)], fun _ => 0, 1, 1⟩
        ⟨PriorityToQueue.empty, [], 0⟩).2 =
      (FetchNewFromDb ⟨[3], fun _ => [], fun _ => 0, 1, 1⟩
        ⟨PriorityToQueue.empty, [], 0⟩).2 ∧
    (FetchNewFromDb ⟨[3], fun _ => [(some [⟨11, 1, 101⟩], true)], fun _ => 0, 1, 1⟩
        ⟨PriorityToQueue.empty, [], 0⟩).1.lastAddrIndex =
      (FetchNewFromDb ⟨[3], fun _ => [], fun _ => 0, 1, 1⟩
        ⟨PriorityToQueue.empty, [], 0⟩).1.lastAddrIndex := by
  have h := C9_fetch_error_isolated
    ⟨[3], fun _ => [], fun _ => 0, 1, 1⟩ ⟨PriorityToQueue.empty, [], 0⟩
  exact ⟨h.1 1 (fun _ => 0) [] [⟨11, 1, 101⟩] [] 0 PriorityToQueue.empty,
    (h.2.2 ⟨[3], fun _ => [(some [⟨11, 1, 101⟩], true)], fun _ => 0, 1, 1⟩
      ⟨PriorityToQueue.empty, [], 0⟩ rfl rfl rfl).1,
    (h.2.2 ⟨[3], fun _ => [(some [⟨11, 1, 101⟩], true)], fun _ => 0, 1, 1⟩
      ⟨PriorityToQueue.empty, [], 0⟩ rfl rfl rfl).2⟩

/-- C3: a (sender, receiver) pair that is in the blacklist when a paging
fetch runs is never inserted by that fetch — the count of queued items with
that pair is exactly what it was before the fetch, over any store, cursor
and batch size; and once the pair is deleted from the blacklist, a fetch
that discovers an item with that pair in the store does insert it (the
pair's queued count grows by one). -/
theorem C3_blacklist_spec (env : FetchEnv) (s : FetchState) (sa ra : Nat) :
    (isInBlackList s.blackList sa ra = true →
      pairCount (FetchNewFromDb env s).1.queue sa ra = pairCount s.queue sa ra) ∧
    (∀ (bl : List (Nat × Nat)) (a : Nat) (b : AccountBlock)
        (q0 : PriorityToQueue) (qf : Nat → Nat),
      b.AccountAddress = sa → b.ToAddress = ra →
      pairCount (FetchNewFromDb ⟨[a], fun _ => [(some [b], false)], qf, 1, 1⟩
          ⟨q0, deleteBlackListItem bl sa ra, 0⟩).1.queue sa ra =
        pairCount q0 sa ra + 1) := by
  constructor
  · intro hbl
    rw [FetchNewFromDb]
    split
    · exact pairCount_fetchAddrs_bl env s.blackList sa ra hbl _ _ _
    · exact pairCount_fetchAddrs_bl env s.blackList sa ra hbl _ _ _
  · intro bl a b q0 qf hsa hra
    have hbl2 : isInBlackList (deleteBlackListItem bl sa ra) b.AccountAddress
        b.ToAddress = false := by
      rw [hsa, hra]
      exact isInBlackList_delete bl sa ra
    have hins : insertBlocks qf (deleteBlackListItem bl sa ra) [b] q0 0 =
        (q0.InsertNew b (qf b.ToAddress) (qf b.AccountAddress), 1) := by
      rw [insertBlocks, if_neg (by simp [hbl2])]
      rfl
    have hpages : fetchPages 1 qf (deleteBlackListItem bl sa ra)
        [(some [b], false)] 0 q0 =
        q0.InsertNew b (qf b.ToAddress) (qf b.AccountAddress) := by
      rw [fetchPages]
      simp [hins]
    have haddrs : fetchAddrs ⟨[a], fun _ => [(some [b], false)], qf, 1, 1⟩
        (deleteBlackListItem bl sa ra) 1 0 q0 =
        (1, q0.InsertNew b (qf b.ToAddress) (qf b.AccountAddress), [a]) := by
      rw [fetchAddrs]
      simp [fetchAddrs, hpages]
    rw [FetchNewFromDb]
    simp only [haddrs]
    simp [pairCount_InsertNew, hsa, hra]

/-- C3 witness: the store offers one item with pair (sender 1, receiver 2);
with (1, 2) blacklisted the fetch inserts nothing for that pair, and after
deleting (1, 2) from the blacklist the same fetch inserts it. -/
theorem C3_blacklist_spec_witness :
    (pairCount (FetchNewFromDb
        ⟨[4], fun _ => [(some [⟨1, 2, 9⟩], false)], fun _ => 0, 1, 1⟩
        ⟨PriorityToQueue.empty, [(1, 2)], 0⟩).1.queue 1 2 =
      pairCount PriorityToQueue.empty 1 2) ∧
    (pairCount (FetchNewFromDb
        ⟨[4], fun _ => [(some [⟨1, 2, 9⟩], false)], fun _ => 0, 1, 1⟩
        ⟨PriorityToQueue.empty, deleteBlackListItem [(1, 2)] 1 2, 0⟩).1.queue 1 2 =
      pairCount PriorityToQueue.empty 1 2 + 1) := by
  constructor
  · exact (C3_blacklist_spec
      ⟨[4], fun _ => [(some [⟨1, 2, 9⟩], false)], fun _ => 0, 1, 1⟩
      ⟨PriorityToQueue.empty, [(1, 2)], 0⟩ 1 2).1 (by decide)
  · exact (C3_blacklist_spec
      ⟨[4], fun _ => [(some [⟨1, 2, 9⟩], false)], fun _ => 0, 1, 1⟩
      ⟨PriorityToQueue.empty, [], 0⟩ 1 2).2 [(1, 2)] 4 ⟨1, 2, 9⟩
      PriorityToQueue.empty (fun _ => 0) rfl rfl

/-- C7: calling the dispatch callback with an empty queue runs the paging
fetch loop; the callback returns `nil` only when the final fetch of that
loop reported a completed full pass and the loop yielded no item (the queue
is still empty), and whenever the fetch loop leaves the queue non-empty the
callback instead pops and returns an item. -/
theorem C7_dispatch_idle_spec (env : FetchEnv) (s : FetchState)
    (hT : 1 ≤ env.CONTRACT_TASK_SIZE) (hwf : QWF s.queue)
    (h0 : s.queue.Len = 0) :
    ((dispatchTask env s).1 = none →
      (fetchLoop env (env.contractAddressList.length + 1) s).2 = true ∧
      (fetchLoop env (env.contractAddressList.length + 1) s).1.queue.Len = 0) ∧
    ((fetchLoop env (env.contractAddressList.length + 1) s).1.queue.Len ≠ 0 →
      ∃ f, (dispatchTask env s).1 = some f) := by
  have hwf2 : QWF (fetchLoop env (env.contractAddressList.length + 1) s).1.queue :=
    QWF_fetchLoop env _ s hwf
  set r := fetchLoop env (env.contractAddressList.length + 1) s with hr
  have hstep : dispatchTask env s =
      (if r.1.queue.Len = 0 then (none, r.1)
       else
        match pickBest toBetter r.1.queue.buckets with
        | none => (none, r.1)
        | some (t, rest) =>
          match pickBest fromBetter t.Value with
          | none => (none, { r.1 with queue := ⟨rest, r.1.queue.nextSeq⟩ })
          | some (f, _) =>
            (some f, { r.1 with queue := ⟨rest, r.1.queue.nextSeq⟩ })) := by
    rw [dispatchTask, if_pos h0]
  have hsome : r.1.queue.Len ≠ 0 → ∃ f, (dispatchTask env s).1 = some f := by
    intro hne
    have hb : r.1.queue.buckets ≠ [] := Len_ne_zero_buckets hne
    obtain ⟨x, xs, hx⟩ := List.exists_cons_of_ne_nil hb
    have hps : (pickBest toBetter r.1.queue.buckets).isSome := by
      rw [hx]; exact pickBest_isSome _ _ _
    obtain ⟨p, hpt⟩ := Option.isSome_iff_exists.mp hps
    obtain ⟨t, rest⟩ := p
    have htne : t.Value ≠ [] := hwf2 t (pickBest_mem hpt)
    obtain ⟨y, ys, hy⟩ := List.exists_cons_of_ne_nil htne
    have hpf : (pickBest fromBetter t.Value).isSome := by
      rw [hy]; exact pickBest_isSome _ _ _
    obtain ⟨p2, hpf2⟩ := Option.isSome_iff_exists.mp hpf
    obtain ⟨f, frest⟩ := p2
    refine ⟨f, ?_⟩
    rw [hstep, if_neg hne]
    simp only [hpt, hpf2]
  constructor
  · intro hnone
    by_cases hne : r.1.queue.Len ≠ 0
    · obtain ⟨f, hf⟩ := hsome hne
      rw [hf] at hnone
      cases hnone
    · push_neg at hne
      refine ⟨?_, hne⟩
      rcases fetchLoop_exit env hT (env.contractAddressList.length + 1) s
        (by omega) with h | h
      · exact h
      · exact absurd hne h
  · exact hsome

/-- C7 witness: one bound address, an empty store, an empty queue — the
dispatch callback's fetch loop completes a full pass, yields nothing, and
the callback returns `nil`. -/
theorem C7_dispatch_idle_spec_witness :
    ((dispatchTask ⟨[5], fun _ => [], fun _ => 0, 1, 1⟩
        ⟨PriorityToQueue.empty, [], 0⟩).1 = none →
      (fetchLoop ⟨[5], fun _ => [], fun _ => 0, 1, 1⟩ 2
        ⟨PriorityToQueue.empty, [], 0⟩).2 = true ∧
      (fetchLoop ⟨[5], fun _ => [], fun _ => 0, 1, 1⟩ 2
        ⟨PriorityToQueue.empty, [], 0⟩).1.queue.Len = 0) ∧
    ((fetchLoop ⟨[5], fun _ => [], fun _ => 0, 1, 1⟩ 2
        ⟨PriorityToQueue.empty, [], 0⟩).1.queue.Len ≠ 0 →
      ∃ f, (dispatchTask ⟨[5], fun _ => [], fun _ => 0, 1, 1⟩
        ⟨PriorityToQueue.empty, [], 0⟩).1 = some f) := by
  exact C7_dispatch_idle_spec ⟨[5], fun _ => [], fun _ => 0, 1, 1⟩
    ⟨PriorityToQueue.empty, [], 0⟩ (by decide)
    (fun t ht => absurd ht (List.not_mem_nil t)) rfl

end GoVite
